import Mathlib

/-!
Verification development for the portfolio chat backend.

Shallow embedding of the TypeScript sources:
  - `src/lib/chat-client.ts`   (model gateway: fallback marker parsers, response
    classification of the OpenAI-compatible and HuggingFace backends)
  - `src/lib/mcp-tools.ts`     (tool registry: `callTool` over the cached content store)
  - `src/app/api/chat/route.ts` (orchestration loop `POST`, card extraction
    `extractProjectCards`)

Modelling conventions:
  - JavaScript strings are Lean `String`s; all scanning / case folding is done over
    `String.data` (`List Char`) with bespoke executable helpers so that every
    definition reduces in the kernel.  Case folding and whitespace classes are
    modelled at ASCII precision (the repository's content and markers are ASCII).
  - `JSON.parse` is modelled by the executable `parseJson` below (fuel-based
    recursive-descent parser of the JSON grammar; numbers are kept as their source
    lexeme, since no code path under verification inspects numeric values).
  - `JSON.stringify` is modelled by `stringifyJson`.  `callTool` in the source
    serializes with a 2-space indent; the model serializes compactly — the two
    serializations denote the same JSON value and no verified property inspects
    the whitespace of a serialized payload.
  - The content store (`content/*.json`, loaded and cached by `mcp-tools.ts`) is
    passed explicitly as `SiteContent`/`ResumeContent`/`List Project` arguments.
  - `new Date(s).getTime()` (used only by the `sort: "recent"` branch of
    `list_projects`) is abstracted as an explicit `dateVal : String → Int`
    parameter.
  - JavaScript exceptions (`TypeError` from property access on `null`, from
    `.toLowerCase()` on a non-string, throws of tool handlers) are modelled with
    `Except`; `try`/`catch` blocks are modelled by matching on the `Except`.
-/

/-! ## ASCII string helpers (JS `toLowerCase`, `includes`, `indexOf`, `trim`) -/

/-- `s.toLowerCase()` at ASCII precision: lower-case every character. -/
def lowerStr (s : String) : String := String.mk (s.data.map Char.toLower)

/-- Does `pre` occur at the head of `l`? -/
def seqPrefix : List Char → List Char → Bool
  | [], _ => true
  | _ :: _, [] => false
  | a :: as, b :: bs => a == b && seqPrefix as bs

/-- Does `needle` occur contiguously anywhere in `hay`? -/
def seqContains (needle : List Char) : List Char → Bool
  | [] => seqPrefix needle []
  | hay@(_ :: t) => seqPrefix needle hay || seqContains needle t

/-- JS `s.includes(needle)`. -/
def strIncludes (s needle : String) : Bool := seqContains needle.data s.data

/-- Index of the first occurrence of `needle` in `l` at or after position `i`
    (the accumulator `i` names the absolute position of the head of `l`). -/
def indexOfSeqAux (needle : List Char) : List Char → Nat → Option Nat
  | [], i => if needle.isEmpty then some i else none
  | l@(_ :: t), i => if seqPrefix needle l then some i else indexOfSeqAux needle t (i + 1)

/-- JS `s.indexOf(needle)`, with `none` for `-1`. -/
def strIndexOf (s needle : String) : Option Nat := indexOfSeqAux needle.data s.data 0

/-- JS `s.indexOf(c, start)`: first occurrence of the character `c` at or after
    position `start`, with `none` for `-1`. -/
def indexOfCharFrom (l : List Char) (c : Char) (start : Nat) : Option Nat :=
  indexOfSeqAux [c] (l.drop start) 0 |>.map (· + start)

/-- The characters the JS regex class `\s` covers at ASCII precision
    (space, tab, line feed, carriage return, vertical tab, form feed). -/
def jsWhitespaceChar (c : Char) : Bool :=
  c == ' ' || c == '\t' || c == '\n' || c == '\r' || c == Char.ofNat 11 || c == Char.ofNat 12

/-- Strip leading and trailing JS whitespace from a character list. -/
def trimChars (l : List Char) : List Char :=
  ((l.dropWhile jsWhitespaceChar).reverse.dropWhile jsWhitespaceChar).reverse

/-- JS `s.trim()` at ASCII precision. -/
def trimStr (s : String) : String := String.mk (trimChars s.data)

/-- Join a list of strings with a separator (JS `Array.prototype.join`). -/
def joinSep (sep : String) : List String → String
  | [] => ""
  | [x] => x
  | x :: xs => x ++ sep ++ joinSep sep xs

/-! ## JSON values

JSON values are a mutual inductive family (`Json` / `JsonList` / `JsonFields`) so
that all recursion over them is structural and therefore kernel-reducible.
Object fields keep insertion order, as JS objects do. -/

mutual
inductive Json where
  | null : Json
  | bool : Bool → Json
  | num : String → Json
  | str : String → Json
  | arr : JsonList → Json
  | obj : JsonFields → Json
deriving Repr

inductive JsonList where
  | nil : JsonList
  | cons : Json → JsonList → JsonList
deriving Repr

inductive JsonFields where
  | nil : JsonFields
  | cons : String → Json → JsonFields → JsonFields
deriving Repr
end

mutual
def Json.beq : Json → Json → Bool
  | .null, .null => true
  | .bool a, .bool b => a == b
  | .num a, .num b => a == b
  | .str a, .str b => a == b
  | .arr a, .arr b => JsonList.beq a b
  | .obj a, .obj b => JsonFields.beq a b
  | _, _ => false

def JsonList.beq : JsonList → JsonList → Bool
  | .nil, .nil => true
  | .cons x xs, .cons y ys => Json.beq x y && JsonList.beq xs ys
  | _, _ => false

def JsonFields.beq : JsonFields → JsonFields → Bool
  | .nil, .nil => true
  | .cons k v xs, .cons k2 v2 ys => k == k2 && Json.beq v v2 && JsonFields.beq xs ys
  | _, _ => false
end

mutual
theorem jsonBeqIff : ∀ a b : Json, Json.beq a b = true ↔ a = b
  | .null, .null => by simp [Json.beq]
  | .bool _, .bool _ => by simp [Json.beq]
  | .num _, .num _ => by simp [Json.beq]
  | .str _, .str _ => by simp [Json.beq]
  | .arr a, .arr b => by simp [Json.beq, jsonListBeqIff a b]
  | .obj a, .obj b => by simp [Json.beq, jsonFieldsBeqIff a b]
  | .null, .bool _ => by simp [Json.beq]
  | .null, .num _ => by simp [Json.beq]
  | .null, .str _ => by simp [Json.beq]
  | .null, .arr _ => by simp [Json.beq]
  | .null, .obj _ => by simp [Json.beq]
  | .bool _, .null => by simp [Json.beq]
  | .bool _, .num _ => by simp [Json.beq]
  | .bool _, .str _ => by simp [Json.beq]
  | .bool _, .arr _ => by simp [Json.beq]
  | .bool _, .obj _ => by simp [Json.beq]
  | .num _, .null => by simp [Json.beq]
  | .num _, .bool _ => by simp [Json.beq]
  | .num _, .str _ => by simp [Json.beq]
  | .num _, .arr _ => by simp [Json.beq]
  | .num _, .obj _ => by simp [Json.beq]
  | .str _, .null => by simp [Json.beq]
  | .str _, .bool _ => by simp [Json.beq]
  | .str _, .num _ => by simp [Json.beq]
  | .str _, .arr _ => by simp [Json.beq]
  | .str _, .obj _ => by simp [Json.beq]
  | .arr _, .null => by simp [Json.beq]
  | .arr _, .bool _ => by simp [Json.beq]
  | .arr _, .num _ => by simp [Json.beq]
  | .arr _, .str _ => by simp [Json.beq]
  | .arr _, .obj _ => by simp [Json.beq]
  | .obj _, .null => by simp [Json.beq]
  | .obj _, .bool _ => by simp [Json.beq]
  | .obj _, .num _ => by simp [Json.beq]
  | .obj _, .str _ => by simp [Json.beq]
  | .obj _, .arr _ => by simp [Json.beq]

theorem jsonListBeqIff : ∀ a b : JsonList, JsonList.beq a b = true ↔ a = b
  | .nil, .nil => by simp [JsonList.beq]
  | .cons x xs, .cons y ys => by
      simp [JsonList.beq, jsonBeqIff x y, jsonListBeqIff xs ys]
  | .nil, .cons _ _ => by simp [JsonList.beq]
  | .cons _ _, .nil => by simp [JsonList.beq]

theorem jsonFieldsBeqIff : ∀ a b : JsonFields, JsonFields.beq a b = true ↔ a = b
  | .nil, .nil => by simp [JsonFields.beq]
  | .cons _ v xs, .cons _ v2 ys => by
      simp [JsonFields.beq, jsonBeqIff v v2, jsonFieldsBeqIff xs ys, and_assoc]
  | .nil, .cons _ _ _ => by simp [JsonFields.beq]
  | .cons _ _ _, .nil => by simp [JsonFields.beq]
end

instance : DecidableEq Json := fun a b =>
  decidable_of_iff (Json.beq a b = true) (jsonBeqIff a b)

instance : DecidableEq JsonList := fun a b =>
  decidable_of_iff (JsonList.beq a b = true) (jsonListBeqIff a b)

instance : DecidableEq JsonFields := fun a b =>
  decidable_of_iff (JsonFields.beq a b = true) (jsonFieldsBeqIff a b)

def JsonList.ofList : List Json → JsonList
  | [] => .nil
  | x :: xs => .cons x (JsonList.ofList xs)

def JsonFields.ofList : List (String × Json) → JsonFields
  | [] => .nil
  | (k, v) :: xs => .cons k v (JsonFields.ofList xs)

/-- Value of field `k` in a JS object's field list (`none` for JS `undefined`). -/
def JsonFields.lookupField : JsonFields → String → Option Json
  | .nil, _ => none
  | .cons k v rest, key => if k == key then some v else rest.lookupField key

/-- Build a JSON object from a Lean list of fields. -/
def objL (fields : List (String × Json)) : Json := .obj (JsonFields.ofList fields)

/-- Build a JSON array from a Lean list of values. -/
def arrL (elems : List Json) : Json := .arr (JsonList.ofList elems)

/-- A JSON array of strings. -/
def jsonStrList (l : List String) : Json := arrL (l.map Json.str)

/-- A JSON object with string values (JS `Record<string, string>`). -/
def jsonStrMap (l : List (String × String)) : Json :=
  objL (l.map (fun p => (p.1, Json.str p.2)))

/-- A nullable JS string (`string | null`). -/
def jsonOfOptStr : Option String → Json
  | none => .null
  | some s => .str s

/-- Is the mantissa of a JSON number lexeme zero (so the JS number is `±0`)?
    Exponent digits (after `e`/`E`) are irrelevant to zeroness. -/
def numLexIsZero (lex : String) : Bool :=
  ((lex.data.takeWhile (fun c => c != 'e' && c != 'E')).filter Char.isDigit).all
    (fun c => c == '0')

/-- JS `ToBoolean` on a parsed JSON value: `null`, `false`, `±0` and `""` are
    falsy; every array and object is truthy. -/
def jsonTruthy : Json → Bool
  | .null => false
  | .bool b => b
  | .num lex => !numLexIsZero lex
  | .str s => s != ""
  | .arr _ => true
  | .obj _ => true

/-- JS truthiness of a possibly-`undefined` value. -/
def optTruthy : Option Json → Bool
  | none => false
  | some j => jsonTruthy j

/-! ## `JSON.parse` model

A fuel-based recursive-descent parser of the JSON grammar (RFC 8259, which is
what `JSON.parse` implements).  Numbers are kept as their source lexeme.
Duplicate object keys follow JS semantics: the first occurrence fixes the key's
position, the last occurrence fixes its value (`objInsert`).  `\uXXXX` escapes
are mapped through `Char.ofNat` (lone UTF-16 surrogates, which JS strings can
hold, collapse to the replacement behaviour of `Char.ofNat`; no verified
property touches them).  The fuel bounds the recursion depth and is generous
relative to the input length, since every level of nesting consumes at least
one input character. -/

def isJsonWsChar (c : Char) : Bool :=
  c == ' ' || c == '\t' || c == '\n' || c == '\r'

def skipWs (l : List Char) : List Char := l.dropWhile isJsonWsChar

/-- Value of a hexadecimal digit (`0`-`9`, `a`-`f`, `A`-`F`), by code point. -/
def hexVal (c : Char) : Option Nat :=
  let n := c.toNat
  if 48 ≤ n && n ≤ 57 then some (n - 48)
  else if 97 ≤ n && n ≤ 102 then some (n - 87)
  else if 65 ≤ n && n ≤ 70 then some (n - 55)
  else none

def escChar : Char → Option Char
  | '"' => some '"'
  | '\\' => some '\\'
  | '/' => some '/'
  | 'b' => some (Char.ofNat 8)
  | 'f' => some (Char.ofNat 12)
  | 'n' => some '\n'
  | 'r' => some '\r'
  | 't' => some '\t'
  | _ => none

/-- Parse the body of a JSON string after its opening quote; returns the decoded
    characters and the input remaining after the closing quote. -/
def parseStrBody : List Char → Option (List Char × List Char)
  | [] => none
  | '"' :: rest => some ([], rest)
  | '\\' :: 'u' :: h1 :: h2 :: h3 :: h4 :: rest => do
      let a ← hexVal h1
      let b ← hexVal h2
      let c ← hexVal h3
      let d ← hexVal h4
      let (s, r) ← parseStrBody rest
      some (Char.ofNat (((a * 16 + b) * 16 + c) * 16 + d) :: s, r)
  | '\\' :: e :: rest => do
      let c ← escChar e
      let (s, r) ← parseStrBody rest
      some (c :: s, r)
  | c :: rest =>
      if c.toNat < 32 then none
      else do
        let (s, r) ← parseStrBody rest
        some (c :: s, r)

def spanDigits (l : List Char) : List Char × List Char :=
  (l.takeWhile Char.isDigit, l.dropWhile Char.isDigit)

def parseIntPart : List Char → Option (List Char × List Char)
  | '0' :: t => some (['0'], t)
  | c :: t =>
      if c.isDigit then
        let (ds, r) := spanDigits t
        some (c :: ds, r)
      else none
  | [] => none

def parseFracPart : List Char → Option (List Char × List Char)
  | '.' :: t =>
      match spanDigits t with
      | ([], _) => none
      | (ds, r) => some ('.' :: ds, r)
  | l => some ([], l)

def parseExpPart : List Char → Option (List Char × List Char)
  | c :: t =>
      if c == 'e' || c == 'E' then
        let (sgn, t2) : List Char × List Char :=
          match t with
          | '+' :: u => (['+'], u)
          | '-' :: u => (['-'], u)
          | _ => ([], t)
        match spanDigits t2 with
        | ([], _) => none
        | (ds, r) => some (c :: (sgn ++ ds), r)
      else some ([], c :: t)
  | [] => some ([], [])

/-- Parse a JSON number; returns its lexeme and the remaining input. -/
def parseNumber (l : List Char) : Option (List Char × List Char) := do
  let (sign, l1) : List Char × List Char :=
    match l with
    | '-' :: t => (['-'], t)
    | _ => ([], l)
  let (ip, l2) ← parseIntPart l1
  let (fp, l3) ← parseFracPart l2
  let (ep, l4) ← parseExpPart l3
  some (sign ++ ip ++ fp ++ ep, l4)

/-- JS object-key insertion: an existing key keeps its position and takes the
    new value; a new key is appended. -/
def objInsert (fs : List (String × Json)) (k : String) (v : Json) : List (String × Json) :=
  if fs.any (fun p => p.1 == k) then fs.map (fun p => if p.1 == k then (p.1, v) else p)
  else fs ++ [(k, v)]

mutual
def parseVal : Nat → List Char → Option (Json × List Char)
  | 0, _ => none
  | fuel + 1, l =>
    match skipWs l with
    | 'n' :: 'u' :: 'l' :: 'l' :: rest => some (.null, rest)
    | 't' :: 'r' :: 'u' :: 'e' :: rest => some (.bool true, rest)
    | 'f' :: 'a' :: 'l' :: 's' :: 'e' :: rest => some (.bool false, rest)
    | '"' :: rest => (parseStrBody rest).map (fun p => (.str (String.mk p.1), p.2))
    | '[' :: rest => (parseArrBody fuel rest).map (fun p => (arrL p.1, p.2))
    | '{' :: rest => (parseObjBody fuel rest).map (fun p =>
        (objL (p.1.foldl (fun acc kv => objInsert acc kv.1 kv.2) []), p.2))
    | l1 => (parseNumber l1).map (fun p => (.num (String.mk p.1), p.2))

def parseArrBody : Nat → List Char → Option (List Json × List Char)
  | 0, _ => none
  | fuel + 1, l =>
    match skipWs l with
    | ']' :: rest => some ([], rest)
    | l1 => parseArrItems fuel l1

def parseArrItems : Nat → List Char → Option (List Json × List Char)
  | 0, _ => none
  | fuel + 1, l => do
    let (v, r) ← parseVal fuel l
    match skipWs r with
    | ',' :: r2 => do
        let (vs, r3) ← parseArrItems fuel r2
        some (v :: vs, r3)
    | ']' :: r2 => some ([v], r2)
    | _ => none

def parseObjBody : Nat → List Char → Option (List (String × Json) × List Char)
  | 0, _ => none
  | fuel + 1, l =>
    match skipWs l with
    | '}' :: rest => some ([], rest)
    | l1 => parseObjItems fuel l1

def parseObjItems : Nat → List Char → Option (List (String × Json) × List Char)
  | 0, _ => none
  | fuel + 1, l =>
    match skipWs l with
    | '"' :: rest => do
        let (k, r) ← parseStrBody rest
        match skipWs r with
        | ':' :: r2 => do
            let (v, r3) ← parseVal fuel r2
            match skipWs r3 with
            | ',' :: r4 => do
                let (kvs, r5) ← parseObjItems fuel r4
                some ((String.mk k, v) :: kvs, r5)
            | '}' :: r4 => some ([(String.mk k, v)], r4)
            | _ => none
        | _ => none
    | _ => none
end

/-- `JSON.parse` model: parse one JSON value and require the rest of the input
    to be whitespace; `none` models a thrown `SyntaxError`. -/
def parseJson (s : String) : Option Json :=
  match parseVal (10 * (s.data.length + 1)) s.data with
  | some (j, rest) => if (skipWs rest).isEmpty then some j else none
  | none => none

/-! ## `JSON.stringify` model (compact form) -/

def hexDigitChar (n : Nat) : Char :=
  if n < 10 then Char.ofNat ('0'.toNat + n) else Char.ofNat ('a'.toNat + (n - 10))

def escapeJsonChar (c : Char) : List Char :=
  if c == '"' then ['\\', '"']
  else if c == '\\' then ['\\', '\\']
  else if c == '\n' then ['\\', 'n']
  else if c == '\r' then ['\\', 'r']
  else if c == '\t' then ['\\', 't']
  else if c.toNat == 8 then ['\\', 'b']
  else if c.toNat == 12 then ['\\', 'f']
  else if c.toNat < 32 then ['\\', 'u', '0', '0', hexDigitChar (c.toNat / 16), hexDigitChar (c.toNat % 16)]
  else [c]

def quoteJsonStr (s : String) : String :=
  String.mk ('"' :: s.data.foldr (fun c acc => escapeJsonChar c ++ acc) ['"'])

mutual
def stringifyJson : Json → String
  | .null => "null"
  | .bool b => if b then "true" else "false"
  | .num lex => lex
  | .str s => quoteJsonStr s
  | .arr l => "[" ++ stringifyJsonList l ++ "]"
  | .obj fs => "\x7b" ++ stringifyJsonFields fs ++ "\x7d"

def stringifyJsonList : JsonList → String
  | .nil => ""
  | .cons x rest => stringifyJson x ++ stringifyJsonListTail rest

def stringifyJsonListTail : JsonList → String
  | .nil => ""
  | .cons x rest => "," ++ stringifyJson x ++ stringifyJsonListTail rest

def stringifyJsonFields : JsonFields → String
  | .nil => ""
  | .cons k v rest => quoteJsonStr k ++ ":" ++ stringifyJson v ++ stringifyJsonFieldsTail rest

def stringifyJsonFieldsTail : JsonFields → String
  | .nil => ""
  | .cons k v rest => "," ++ quoteJsonStr k ++ ":" ++ stringifyJson v ++ stringifyJsonFieldsTail rest
end

/-! ## JS `String(value)` (template-literal interpolation of a parsed value)

`Array.prototype.toString` joins elements with `,` and renders `null` elements
as the empty string. -/

mutual
def jsToString : Json → String
  | .null => "null"
  | .bool b => if b then "true" else "false"
  | .num lex => lex
  | .str s => s
  | .arr l => jsToStringItems l
  | .obj _ => "[object Object]"

def jsToStringItems : JsonList → String
  | .nil => ""
  | .cons .null rest => jsToStringItemsTail rest
  | .cons x rest => jsToString x ++ jsToStringItemsTail rest

def jsToStringItemsTail : JsonList → String
  | .nil => ""
  | .cons .null rest => "," ++ jsToStringItemsTail rest
  | .cons x rest => "," ++ jsToString x ++ jsToStringItemsTail rest
end

/-! ## `src/lib/chat-client.ts` — model gateway

`ToolCall`, `ChatResponse` mirror the exported interfaces.  `finishReason` is
modelled as a `String` (the source's union `"stop" | "tool_calls" | "length" |
"error"`). -/

structure ToolCallFunction where
  name : String
  arguments : String
deriving Repr, DecidableEq

structure ToolCall where
  id : String
  type : String
  function : ToolCallFunction
deriving Repr, DecidableEq

structure ChatResponse where
  content : Option String
  toolCalls : Option (List ToolCall)
  finishReason : String
deriving Repr, DecidableEq

/-- JS truthiness of a `string | null | undefined` value. -/
def optStrTruthy : Option String → Bool
  | none => false
  | some s => s != ""

/-- The zod schema `toolCallSchema = { tool: z.string(), args: z.record(z.unknown()) }`:
    the parsed value must be an object whose `tool` field is a string and whose
    `args` field is an object (an array or `null` is rejected by `z.record`).
    Returns the validated `(tool, args)`; extra keys are stripped. -/
def toolCallValidate : Json → Option (String × Json)
  | .obj fs =>
      match fs.lookupField "tool", fs.lookupField "args" with
      | some (.str t), some (.obj afs) => some (t, .obj afs)
      | _, _ => none
  | _ => none

/-- The brace scan of `parseFallbackToolCall` (chat-client.ts lines 61-76):
    starting at absolute position `i` with running `balance`, count `{` up and
    `}` down; when the balance hits zero on a `}`, return the exclusive end
    position `i + 1`.  `none` models the scan running off the end. -/
def scanToBalance : List Char → Int → Nat → Option Nat
  | [], _, _ => none
  | c :: rest, bal, i =>
      if c == '{' then scanToBalance rest (bal + 1) (i + 1)
      else if c == '}' then
        if bal - 1 == 0 then some (i + 1) else scanToBalance rest (bal - 1) (i + 1)
      else scanToBalance rest bal (i + 1)

/-- `parseFallbackToolCall` (chat-client.ts lines 50-95).  `Date.now()`, used
    only to mint the call id, is passed in as `now`.  The steps mirror the
    source: locate the literal marker `TOOL_CALL:`; find the first `{` at or
    after the marker's start; scan to the balanced closing brace; `JSON.parse`
    the enclosed text; validate it against `toolCallSchema`; re-serialize the
    validated `args` as the call's argument text.  Every failure returns `null`
    (the `try`/`catch` swallows parse and validation errors). -/
def parseFallbackToolCall (content : String) (now : Nat) : Option ToolCall :=
  let cs := content.data
  match strIndexOf content "TOOL_CALL:" with
  | none => none
  | some invokeIndex =>
    match indexOfCharFrom cs '{' invokeIndex with
    | none => none
    | some startIndex =>
      match scanToBalance (cs.drop startIndex) 0 startIndex with
      | none => none
      | some endIndex =>
        let jsonStr := String.mk ((cs.drop startIndex).take (endIndex - startIndex))
        match parseJson jsonStr with
        | none => none
        | some parsed =>
          match toolCallValidate parsed with
          | none => none
          | some tc =>
            some { id := "call_" ++ toString now, type := "function",
                   function := { name := tc.1, arguments := stringifyJson tc.2 } }

/-- `parseFinalAnswer` (chat-client.ts lines 101-104): `content.match(/FINAL:\s*([\s\S]+)$/)`,
    then `.trim()` of the capture.  The regex matches iff the marker `FINAL:`
    occurs with at least one character after it; greedy `\s*` plus the trailing
    `.trim()` make the result exactly the trimmed text after the first marker
    occurrence (when the remainder is all whitespace, `\s*` backtracks so the
    capture is a single whitespace character, which trims to `""`). -/
def parseFinalAnswer (content : String) : Option String :=
  match strIndexOf content "FINAL:" with
  | none => none
  | some i =>
    let tail := content.data.drop (i + 6)
    if tail.isEmpty then none else some (String.mk (trimChars tail))

/-- Response classification of `callOpenAICompatible` (chat-client.ts lines
    161-198), as a function of the parsed choice's `message.content`,
    `message.tool_calls` and `finish_reason` (absent fields are `none`):
    native tool calls win; then the `TOOL_CALL:` fallback; then a truthy
    `FINAL:` answer; otherwise the raw content with
    `finish_reason === "stop" ? "stop" : "length"`. -/
def classifyOpenAICompatible (msgContent : Option String) (msgToolCalls : Option (List ToolCall))
    (finishSignal : Option String) (now : Nat) : ChatResponse :=
  match msgToolCalls with
  | some (tc :: tcs) =>
      { content := msgContent, toolCalls := some (tc :: tcs), finishReason := "tool_calls" }
  | _ =>
    let content := match msgContent with
      | some s => s
      | none => ""
    match parseFallbackToolCall content now with
    | some fallbackToolCall =>
        { content := none, toolCalls := some [fallbackToolCall], finishReason := "tool_calls" }
    | none =>
      let finalAnswer := parseFinalAnswer content
      if optStrTruthy finalAnswer then
        { content := finalAnswer, toolCalls := none, finishReason := "stop" }
      else
        { content := some content, toolCalls := none,
          finishReason := if finishSignal = some "stop" then "stop" else "length" }

/-- Response classification of the `data.choices` branch of `callHuggingFace`
    (chat-client.ts lines 258-297).  Identical to the OpenAI-compatible
    classification except that the raw-content case returns
    `finishReason: "stop"` unconditionally, ignoring `choice.finish_reason`. -/
def classifyHuggingFace (msgContent : Option String) (msgToolCalls : Option (List ToolCall))
    (finishSignal : Option String) (now : Nat) : ChatResponse :=
  match msgToolCalls with
  | some (tc :: tcs) =>
      { content := msgContent, toolCalls := some (tc :: tcs), finishReason := "tool_calls" }
  | _ =>
    let content := match msgContent with
      | some s => s
      | none => ""
    match parseFallbackToolCall content now with
    | some fallbackToolCall =>
        { content := none, toolCalls := some [fallbackToolCall], finishReason := "tool_calls" }
    | none =>
      let finalAnswer := parseFinalAnswer content
      if optStrTruthy finalAnswer then
        { content := finalAnswer, toolCalls := none, finishReason := "stop" }
      else
        { content := some content, toolCalls := none, finishReason := "stop" }

/-! ## `src/lib/mcp-tools.ts` — tool registry over the content store

The content records (`content/site.json`, `content/resume.json`,
`content/projects.json`), which `getSite`/`getResume`/`getProjects` read and
cache, are passed in explicitly.  JS `Record<string, string>` maps are
insertion-ordered association lists. -/

structure SiteContent where
  name : String
  title : String
  tagline : String
  bio : String
  avatar : String
  location : String
  socials : List (String × String)
  highlights : List String
  currentFocus : List String
  navigation : List (String × String)
deriving Repr, DecidableEq

structure Experience where
  company : String
  role : String
  period : String
  location : String
  highlights : List String
deriving Repr, DecidableEq

structure Education where
  institution : String
  degree : String
  focus : String
  period : String
deriving Repr, DecidableEq

structure SkillsContent where
  programming : List String
  frameworks : List String
  cloud_mlops : List String
  llm : List String
  ml : List String
deriving Repr, DecidableEq

structure ResumeContent where
  summary : String
  experience : List Experience
  education : List Education
  certifications : List String
  skills : SkillsContent
deriving Repr, DecidableEq

structure Project where
  slug : String
  title : String
  shortDescription : String
  description : String
  problemStatement : String
  solution : String
  impact : List String
  metrics : List (String × String)
  techStack : List String
  tags : List String
  featured : Bool
  date : String
  status : String
  githubUrl : Option String
  demoUrl : Option String
  links : List (String × String)
deriving Repr, DecidableEq

/-- The fixed six-tool catalog declared by `toolDefinitions` (mcp-tools.ts
    lines 116-199) and dispatched on by `callTool`. -/
def toolCatalog : List String :=
  ["search_site", "list_projects", "get_project", "get_skills", "get_resume_section", "get_contact"]

/-- `args?.k` on the parsed argument object: field of an object, `undefined`
    otherwise (optional chaining guards the `null` receiver). -/
def argGet (args : Json) (k : String) : Option Json :=
  match args with
  | .obj fs => fs.lookupField k
  | _ => none

/-! ### `search_site` (mcp-tools.ts lines 207-286) -/

structure SearchHit where
  type : String
  title : String
  snippet : String
deriving Repr, DecidableEq

def aboutMatches (site : SiteContent) (query : String) : Bool :=
  strIncludes (lowerStr site.bio) query || strIncludes (lowerStr site.name) query ||
    site.highlights.any (fun h => strIncludes (lowerStr h) query)

def aboutHit (site : SiteContent) : SearchHit :=
  { type := "about", title := "About " ++ site.name, snippet := site.bio }

def summaryMatches (resume : ResumeContent) (query : String) : Bool :=
  strIncludes (lowerStr resume.summary) query

def summaryHit (resume : ResumeContent) : SearchHit :=
  { type := "resume", title := "Professional Summary", snippet := resume.summary }

def expMatches (query : String) (exp : Experience) : Bool :=
  strIncludes (lowerStr exp.company) query || strIncludes (lowerStr exp.role) query ||
    exp.highlights.any (fun h => strIncludes (lowerStr h) query)

def expHit (exp : Experience) : SearchHit :=
  { type := "experience", title := exp.role ++ " at " ++ exp.company,
    snippet := joinSep ". " (exp.highlights.take 2) }

def projMatches (query : String) (p : Project) : Bool :=
  strIncludes (lowerStr p.title) query || strIncludes (lowerStr p.description) query ||
    p.tags.any (fun t => strIncludes (lowerStr t) query) ||
    p.techStack.any (fun t => strIncludes (lowerStr t) query)

def projHit (p : Project) : SearchHit :=
  { type := "project", title := p.title, snippet := p.shortDescription }

/-- `Object.values(resume.skills).flat()`: the five category lists in the
    insertion order of `resume.json`'s `skills` object (the order of the
    `ResumeContent["skills"]` interface). -/
def allSkills (resume : ResumeContent) : List String :=
  resume.skills.programming ++ resume.skills.frameworks ++ resume.skills.cloud_mlops ++
    resume.skills.llm ++ resume.skills.ml

def skillsHit (matchedSkills : List String) : SearchHit :=
  { type := "skills", title := "Technical Skills",
    snippet := "Matching skills: " ++ joinSep ", " matchedSkills }

/-- The sequential `results.push(...)` calls of the `search_site` handler, as a
    fold in source order: about, resume summary, each experience, each project,
    skills.  `query` is the already-lower-cased query. -/
def searchResults (site : SiteContent) (resume : ResumeContent) (projects : List Project)
    (query : String) : List SearchHit :=
  let results1 : List SearchHit := if aboutMatches site query then [] ++ [aboutHit site] else []
  let results2 := if summaryMatches resume query then results1 ++ [summaryHit resume] else results1
  let results3 := resume.experience.foldl
    (fun acc exp => if expMatches query exp then acc ++ [expHit exp] else acc) results2
  let results4 := projects.foldl
    (fun acc p => if projMatches query p then acc ++ [projHit p] else acc) results3
  let matchedSkills := (allSkills resume).filter (fun s => strIncludes (lowerStr s) query)
  if matchedSkills.length > 0 then results4 ++ [skillsHit matchedSkills] else results4

def searchHitJson (h : SearchHit) : Json :=
  objL [("type", .str h.type), ("title", .str h.title), ("snippet", .str h.snippet)]

/-- The `search_site` success payload `{ query, resultsCount, results }`. -/
def searchPayload (site : SiteContent) (resume : ResumeContent) (projects : List Project)
    (query : String) : Json :=
  let results := searchResults site resume projects query
  objL [("query", .str query), ("resultsCount", .num (toString results.length)),
        ("results", arrL (results.map searchHitJson))]

/-! ### `list_projects` (mcp-tools.ts lines 288-327)

`Array.prototype.sort` is stable (ECMAScript 2019), and for a consistent
comparator a stable sort's output is the unique sorted-and-stable permutation;
it is modelled by insertion sort with `le a b := comparator a b ≤ 0`. -/

def insertLe (le : α → α → Bool) (a : α) : List α → List α
  | [] => [a]
  | b :: l => if le a b then a :: b :: l else b :: insertLe le a l

def insertionSortLe (le : α → α → Bool) : List α → List α
  | [] => []
  | a :: l => insertLe le a (insertionSortLe le l)

/-- The `sort === "impact"` comparator `(b.featured ? 1 : 0) - (a.featured ? 1 : 0)`. -/
def impactCompare (a b : Project) : Int :=
  (if b.featured then 1 else 0) - (if a.featured then 1 else 0)

/-- The `sort === "recent"` comparator
    `new Date(b.date).getTime() - new Date(a.date).getTime()` under the
    abstracted date valuation. -/
def recentCompare (dateVal : String → Int) (a b : Project) : Int :=
  dateVal b.date - dateVal a.date

/-- One entry of the `list_projects` response's `projects` array
    (mcp-tools.ts lines 309-320), fields in source order. -/
def lpEntryJson (p : Project) : Json :=
  objL [("slug", .str p.slug), ("title", .str p.title),
        ("shortDescription", .str p.shortDescription), ("tags", jsonStrList p.tags),
        ("metrics", jsonStrMap p.metrics), ("featured", .bool p.featured),
        ("date", .str p.date), ("status", .str p.status),
        ("githubUrl", jsonOfOptStr p.githubUrl), ("demoUrl", jsonOfOptStr p.demoUrl)]

/-! ### `get_project`, `get_skills`, `get_resume_section`, `get_contact` -/

/-- The `get_project` success payload `{ ...project }`, fields in the order of
    the project records of `content/projects.json` (the `Project` interface). -/
def projectToJson (p : Project) : Json :=
  objL [("slug", .str p.slug), ("title", .str p.title),
        ("shortDescription", .str p.shortDescription), ("description", .str p.description),
        ("problemStatement", .str p.problemStatement), ("solution", .str p.solution),
        ("impact", jsonStrList p.impact), ("metrics", jsonStrMap p.metrics),
        ("techStack", jsonStrList p.techStack), ("tags", jsonStrList p.tags),
        ("featured", .bool p.featured), ("date", .str p.date), ("status", .str p.status),
        ("githubUrl", jsonOfOptStr p.githubUrl), ("demoUrl", jsonOfOptStr p.demoUrl),
        ("links", arrL (p.links.map (fun l => objL [("label", .str l.1), ("url", .str l.2)])))]

def skillsJson (s : SkillsContent) : Json :=
  objL [("programming", jsonStrList s.programming), ("frameworks", jsonStrList s.frameworks),
        ("cloud_mlops", jsonStrList s.cloud_mlops), ("llm", jsonStrList s.llm),
        ("ml", jsonStrList s.ml)]

def experienceJson (e : Experience) : Json :=
  objL [("company", .str e.company), ("role", .str e.role), ("period", .str e.period),
        ("location", .str e.location), ("highlights", jsonStrList e.highlights)]

def educationJson (e : Education) : Json :=
  objL [("institution", .str e.institution), ("degree", .str e.degree),
        ("focus", .str e.focus), ("period", .str e.period)]

/-- `callTool` (mcp-tools.ts lines 202-404), returning the response payload as
    a JSON value (the source serializes it; see the header note).  `.error`
    models a thrown `TypeError` — the only throw sites are `.toLowerCase()`
    calls on a truthy non-string `query` or `tag` argument.  Keys that
    `JSON.stringify` would drop because their value is `undefined` (an absent
    `tag` filter) are omitted from the payload object. -/
def callToolJson (site : SiteContent) (resume : ResumeContent) (projects : List Project)
    (dateVal : String → Int) (name : String) (args : Json) : Except String Json :=
  match name with
  | "search_site" =>
      match argGet args "query" with
      | some (.str s) => .ok (searchPayload site resume projects (lowerStr s))
      | some j =>
          if jsonTruthy j then .error "TypeError: toLowerCase is not a function"
          else .ok (searchPayload site resume projects "")
      | none => .ok (searchPayload site resume projects "")
  | "list_projects" =>
      let tagOpt := argGet args "tag"
      let sortVal : Json := match argGet args "sort" with
        | some j => if jsonTruthy j then j else .str "impact"
        | none => .str "impact"
      let filteredE : Except String (List Project) := match tagOpt with
        | some (.str t) =>
            if t != "" then
              .ok (projects.filter (fun p => p.tags.any (fun pt => lowerStr pt == lowerStr t)))
            else .ok projects
        | some j =>
            if jsonTruthy j then
              if projects.all (fun p => p.tags.isEmpty) then .ok []
              else .error "TypeError: toLowerCase is not a function"
            else .ok projects
        | none => .ok projects
      match filteredE with
      | .error e => .error e
      | .ok filtered =>
          let sorted := if sortVal = Json.str "impact"
            then insertionSortLe (fun a b => decide (impactCompare a b ≤ 0)) filtered
            else insertionSortLe (fun a b => decide (recentCompare dateVal a b ≤ 0)) filtered
          let projectList := sorted.map lpEntryJson
          .ok (objL [("filters",
                      objL ((match tagOpt with | some t => [("tag", t)] | none => []) ++
                            [("sort", sortVal)])),
                     ("count", Json.num (toString projectList.length)),
                     ("projects", arrL projectList)])
  | "get_project" =>
      let slugVal := argGet args "slug"
      if !optTruthy slugVal then .ok (objL [("error", .str "slug is required")])
      else
        match projects.find? (fun p => decide (slugVal = some (Json.str p.slug))) with
        | none =>
            .ok (objL [("error", .str ("Project not found: " ++
                          (match slugVal with | some j => jsToString j | none => "undefined"))),
                       ("availableSlugs", jsonStrList (projects.map (fun p => p.slug)))])
        | some project => .ok (projectToJson project)
  | "get_skills" =>
      .ok (objL [("skills", skillsJson resume.skills),
                 ("certifications", jsonStrList resume.certifications)])
  | "get_resume_section" =>
      match argGet args "section" with
      | none => .ok (objL [("error", .str "section is required")])
      | some j =>
          if !jsonTruthy j then .ok (objL [("error", .str "section is required")])
          else match j with
            | .str "summary" => .ok (objL [("summary", .str resume.summary)])
            | .str "experience" =>
                .ok (objL [("experience", arrL (resume.experience.map experienceJson))])
            | .str "education" =>
                .ok (objL [("education", arrL (resume.education.map educationJson)),
                           ("certifications", jsonStrList resume.certifications)])
            | other => .ok (objL [("error", .str ("Unknown section: " ++ jsToString other))])
  | "get_contact" =>
      .ok (objL [("name", .str site.name), ("location", .str site.location),
                 ("socials", jsonStrMap site.socials)])
  | _ => .ok (objL [("error", .str ("Unknown tool: " ++ name))])

/-! ## `src/app/api/chat/route.ts` — card extraction and the orchestration loop -/

/-- A `ProjectCard` as the route builds it.  Every field holds the raw JS value
    that the property access produced, with `none` for `undefined` (the source's
    optional fields, and absent properties of parsed records). -/
structure ProjectCard where
  title : Option Json
  description : Option Json
  url : Option Json
  metrics : Option Json
  tags : Option Json
  githubUrl : Option Json
  demoUrl : Option Json
deriving Repr, DecidableEq

/-- JS property access `j.k` on a parsed value: a `TypeError` on `null`, the
    field (or `undefined`) on objects, `undefined` on other primitives. -/
def jsGet (j : Json) (k : String) : Except Unit (Option Json) :=
  match j with
  | .null => .error ()
  | .obj fs => .ok (fs.lookupField k)
  | _ => .ok none

/-- `jsGet` for receivers already known to be non-`null` (total). -/
def jsGetD (j : Json) (k : String) : Option Json :=
  match j with
  | .obj fs => fs.lookupField k
  | _ => none

/-- JS `a || b` on possibly-`undefined` values. -/
def jsOrJ (a b : Option Json) : Option Json := if optTruthy a then a else b

/-- One card of the `data.projects` loop (route.ts lines 47-57); accessing a
    `null` element throws before anything is pushed. -/
def buildListedCard (p : Json) : Except Unit ProjectCard :=
  match p with
  | .null => .error ()
  | _ => .ok { title := jsGetD p "title", description := jsGetD p "shortDescription",
               url := jsGetD p "url", metrics := jsGetD p "metrics", tags := jsGetD p "tags",
               githubUrl := jsGetD p "githubUrl", demoUrl := jsGetD p "demoUrl" }

/-- The `data.projects` loop; a throw (`.error`) carries the cards pushed so
    far, which the entry's `catch` keeps. -/
def pushListedCards : JsonList → List ProjectCard → Except (List ProjectCard) (List ProjectCard)
  | .nil, acc => .ok acc
  | .cons p rest, acc =>
      match buildListedCard p with
      | .error _ => .error acc
      | .ok c => pushListedCards rest (acc ++ [c])

/-- The `data.results` loop (route.ts lines 74-84): keep entries whose `type`
    is exactly the string `"project"`; `r.type` on a `null` element throws. -/
def pushSearchCards : JsonList → List ProjectCard → Except (List ProjectCard) (List ProjectCard)
  | .nil, acc => .ok acc
  | .cons r rest, acc =>
      match jsGet r "type" with
      | .error _ => .error acc
      | .ok t =>
          if t = some (Json.str "project") then
            pushSearchCards rest
              (acc ++ [{ title := jsGetD r "title", description := jsGetD r "snippet",
                         url := jsGetD r "url", metrics := none, tags := none,
                         githubUrl := none, demoUrl := none }])
          else pushSearchCards rest acc

/-- The first recognizer (`data.projects && Array.isArray(data.projects)`,
    route.ts lines 46-58): run the projects loop on an array value, otherwise
    push nothing. -/
def entryProjectsStep (pj : Option Json) : Except (List ProjectCard) (List ProjectCard) :=
  match pj with
  | some (.arr ps) => pushListedCards ps []
  | _ => .ok []

/-- The second recognizer (`data.slug && data.title && data.url`, route.ts
    lines 61-71): `data` is known non-`null` here (its `projects` access above
    did not throw), so these accesses are total. -/
def entrySlugStep (data : Json) (acc1 : List ProjectCard) : List ProjectCard :=
  if optTruthy (jsGetD data "slug") && optTruthy (jsGetD data "title") &&
     optTruthy (jsGetD data "url")
  then acc1 ++ [{ title := jsGetD data "title",
                  description := jsOrJ (jsGetD data "shortDescription") (jsGetD data "description"),
                  url := jsGetD data "url", metrics := jsGetD data "metrics",
                  tags := jsGetD data "tags", githubUrl := jsGetD data "githubUrl",
                  demoUrl := jsGetD data "demoUrl" }]
  else acc1

/-- The third recognizer (`data.results && Array.isArray(data.results)`,
    route.ts lines 74-84). -/
def entryResultsStep (data : Json) (acc2 : List ProjectCard) : List ProjectCard :=
  match jsGetD data "results" with
  | some (.arr rs) =>
      (match pushSearchCards rs acc2 with
       | .error acc => acc
       | .ok acc => acc)
  | _ => acc2

/-- The body of `extractProjectCards`'s per-entry `try` block (route.ts lines
    42-87) after a successful `JSON.parse`: the three recognizers in source
    order; any `TypeError` aborts the rest of the entry but keeps the cards
    already pushed. -/
def processEntry (data : Json) : List ProjectCard :=
  match jsGet data "projects" with
  | .error _ => []
  | .ok pj =>
      match entryProjectsStep pj with
      | .error acc => acc
      | .ok acc1 => entryResultsStep data (entrySlugStep data acc1)

/-- Cards contributed by one tool-result string: a failed `JSON.parse` is
    caught and contributes nothing. -/
def cardsOfResult (s : String) : List ProjectCard :=
  match parseJson s with
  | none => []
  | some data => processEntry data

/-- The `for (const result of toolResults)` accumulation. -/
def collectCards (toolResults : List String) : List ProjectCard :=
  toolResults.foldl (fun acc s => acc ++ cardsOfResult s) []

/-- The final `seen`-set filter of `extractProjectCards` (route.ts lines 90-96):
    keep a card iff its `url` was not already seen.  JS `Set` membership is
    SameValueZero; the model compares values structurally, which agrees with JS
    for the string-or-absent URLs every tool payload carries (JS would compare
    object-valued URLs by reference instead). -/
def dedupeCards : List ProjectCard → List (Option Json) → List ProjectCard
  | [], _ => []
  | c :: rest, seen =>
      if c.url ∈ seen then dedupeCards rest seen
      else c :: dedupeCards rest (c.url :: seen)

/-- `extractProjectCards` (route.ts lines 38-97). -/
def extractProjectCards (toolResults : List String) : List ProjectCard :=
  dedupeCards (collectCards toolResults) []

/-! ### The `POST` orchestration loop (route.ts lines 160-247) -/

structure ChatMessage where
  role : String
  content : String
  tool_call_id : Option String := none
  tool_calls : Option (List ToolCall) := none
deriving Repr, DecidableEq

structure ChatApiResponse where
  answer : String
  cards : Option (List ProjectCard)
deriving Repr, DecidableEq

def MAX_TOOL_ITERATIONS : Nat := 5

/-- The fixed fallback answer returned when the loop is exhausted or stuck
    (route.ts lines 239-247). -/
def exhaustionAnswer : String :=
  "I apologize, but I\x27m having trouble processing your request. Could you try rephrasing your question?"

/-- Executing one tool call of a model turn (route.ts lines 171-215): parse the
    argument text (empty object on failure), run the tool, append the
    assistant message carrying the call and the tool message carrying the
    result; a thrown tool error becomes a `{ error }` result message and is
    not pushed onto `allToolResults`. -/
def execToolCall (site : SiteContent) (resume : ResumeContent) (projects : List Project)
    (dateVal : String → Int) (respContent : Option String)
    (st : List ChatMessage × List String) (tc : ToolCall) : List ChatMessage × List String :=
  let toolArgs : Json := match parseJson tc.function.arguments with
    | some j => j
    | none => Json.obj .nil
  let assistantMsg : ChatMessage :=
    { role := "assistant",
      content := match respContent with | some s => s | none => "",
      tool_calls := some [tc] }
  match callToolJson site resume projects dateVal tc.function.name toolArgs with
  | .ok payload =>
      let toolResult := stringifyJson payload
      (st.1 ++ [assistantMsg, { role := "tool", content := toolResult, tool_call_id := some tc.id }],
       st.2 ++ [toolResult])
  | .error msg =>
      (st.1 ++ [assistantMsg,
                { role := "tool", content := stringifyJson (objL [("error", .str msg)]),
                  tool_call_id := some tc.id }],
       st.2)

/-- The `while (iterations < MAX_TOOL_ITERATIONS)` loop, with
    `remaining = MAX_TOOL_ITERATIONS - iterations` as fuel.  The backend
    (`chat(conversationMessages, toolDefinitions)`) is a function of the
    transcript; the second component of the result counts backend calls.
    A turn with tool calls executes them in emission order and iterates; a
    turn with truthy content returns it with up to 5 extracted cards; a turn
    with neither breaks to the fallback, as does exhaustion. -/
def chatLoopAux (backend : List ChatMessage → ChatResponse) (site : SiteContent)
    (resume : ResumeContent) (projects : List Project) (dateVal : String → Int) :
    Nat → List ChatMessage → List String → Nat → ChatApiResponse × Nat
  | 0, _, _, calls => ({ answer := exhaustionAnswer, cards := none }, calls)
  | remaining + 1, msgs, results, calls =>
    let response := backend msgs
    match response.toolCalls with
    | some (tc :: tcs) =>
        let st := (tc :: tcs).foldl (execToolCall site resume projects dateVal response.content)
          (msgs, results)
        chatLoopAux backend site resume projects dateVal remaining st.1 st.2 (calls + 1)
    | _ =>
        match response.content with
        | some answer =>
            if answer != "" then
              let cards := extractProjectCards results
              ({ answer := answer,
                 cards := if cards.length > 0 then some (cards.take 5) else none }, calls + 1)
            else ({ answer := exhaustionAnswer, cards := none }, calls + 1)
        | none => ({ answer := exhaustionAnswer, cards := none }, calls + 1)

/-- The loop as entered by `POST` with a seeded transcript, no accumulated tool
    results and `iterations = 0`. -/
def runChatLoop (backend : List ChatMessage → ChatResponse) (site : SiteContent)
    (resume : ResumeContent) (projects : List Project) (dateVal : String → Int)
    (initialMessages : List ChatMessage) : ChatApiResponse × Nat :=
  chatLoopAux backend site resume projects dateVal MAX_TOOL_ITERATIONS initialMessages [] 0

/-! ## Concrete content-store instances (used by witnesses and counterexamples) -/

def siteW : SiteContent :=
  { name := "Nash", title := "ML Engineer", tagline := "builds things", bio := "ML engineer bio",
    avatar := "/avatar.png", location := "Earth", socials := [("github", "https://gh")],
    highlights := ["built things"], currentFocus := ["llms"], navigation := [("Home", "/")] }

def resumeW : ResumeContent :=
  { summary := "Seasoned ML engineer",
    experience := [{ company := "Acme", role := "Engineer", period := "2020-2024",
                     location := "Remote", highlights := ["did ml work", "shipped models", "third"] }],
    education := [{ institution := "Uni", degree := "BSc", focus := "CS", period := "2016-2020" }],
    certifications := ["cert1"],
    skills := { programming := ["Python"], frameworks := ["PyTorch"], cloud_mlops := ["AWS"],
                llm := ["RAG"], ml := ["NLP"] } }

def projW1 : Project :=
  { slug := "p1", title := "Proj One", shortDescription := "first project", description := "d1",
    problemStatement := "ps1", solution := "sol1", impact := ["i1"], metrics := [("lat", "5ms")],
    techStack := ["Python"], tags := ["NLP"], featured := false, date := "2024-01-01",
    status := "live", githubUrl := none, demoUrl := some "https://d1", links := [] }

def projW2 : Project :=
  { slug := "p2", title := "Proj Two", shortDescription := "second project", description := "d2",
    problemStatement := "ps2", solution := "sol2", impact := ["i2"], metrics := [],
    techStack := ["Rust"], tags := ["MLOps"], featured := true, date := "2023-06-01",
    status := "done", githubUrl := some "https://gh/p2", demoUrl := none, links := [("Docs", "https://docs")] }

def projectsW : List Project := [projW1, projW2]

def dateValW : String → Int := fun _ => 0

/-- A stub backend that always asks for a tool call and never produces content. -/
def backendW : List ChatMessage → ChatResponse := fun _ =>
  { content := none,
    toolCalls := some [{ id := "call_1", type := "function",
                         function := { name := "get_contact", arguments := "\x7b\x7d" } }],
    finishReason := "tool_calls" }

/-- Two `get_project`-shaped tool results sharing one URL (first record). -/
def dupResult1 : String :=
  "\x7b\"slug\":\"p1\",\"title\":\"First\",\"url\":\"https://u\",\"description\":\"one\"\x7d"

/-- Two `get_project`-shaped tool results sharing one URL (second record). -/
def dupResult2 : String :=
  "\x7b\"slug\":\"p2\",\"title\":\"Second\",\"url\":\"https://u\",\"description\":\"two\"\x7d"

/-! ## Helper lemmas -/

theorem foldl_push_filter {α β : Type} (p : α → Bool) (f : α → β) (l : List α) :
    ∀ acc : List β,
      l.foldl (fun a x => if p x then a ++ [f x] else a) acc = acc ++ (l.filter p).map f := by
  induction l with
  | nil => intro acc; simp
  | cons x l ih =>
      intro acc
      by_cases h : p x = true
      · simp [List.foldl_cons, h, ih, List.filter_cons]
      · simp [List.foldl_cons, h, ih, List.filter_cons]

theorem dedupe_filter_of_mem (u : Option Json) :
    ∀ (cards : List ProjectCard) (seen : List (Option Json)), u ∈ seen →
      (dedupeCards cards seen).filter (fun c => decide (c.url = u)) = [] := by
  intro cards
  induction cards with
  | nil => intro seen _; simp [dedupeCards]
  | cons c rest ih =>
      intro seen h
      by_cases hc : c.url ∈ seen
      · simp only [dedupeCards, if_pos hc]
        exact ih seen h
      · have hne : ¬(c.url = u) := fun he => hc (he ▸ h)
        simp only [dedupeCards, if_neg hc, List.filter_cons, decide_eq_true_eq, if_neg hne]
        exact ih (c.url :: seen) (List.mem_cons_of_mem _ h)

theorem dedupe_filter_of_not_mem (u : Option Json) :
    ∀ (cards : List ProjectCard) (seen : List (Option Json)), u ∉ seen →
      (dedupeCards cards seen).filter (fun c => decide (c.url = u)) =
        (cards.filter (fun c => decide (c.url = u))).take 1 := by
  intro cards
  induction cards with
  | nil => intro seen _; simp [dedupeCards]
  | cons c rest ih =>
      intro seen h
      by_cases hc : c.url ∈ seen
      · have hne : ¬(c.url = u) := fun he => h (he ▸ hc)
        simp only [dedupeCards, if_pos hc, List.filter_cons, decide_eq_true_eq, if_neg hne]
        exact ih seen h
      · by_cases he : c.url = u
        · subst he
          simp only [dedupeCards, if_neg hc, List.filter_cons, decide_eq_true_eq, if_pos rfl,
            List.take_succ_cons, List.take_zero]
          rw [dedupe_filter_of_mem c.url rest (c.url :: seen) (by simp)]
          simp
        · have hu : u ∉ c.url :: seen := by
            intro hmem
            rcases List.mem_cons.mp hmem with h1 | h2
            · exact he h1.symm
            · exact h h2
          simp only [dedupeCards, if_neg hc, List.filter_cons, decide_eq_true_eq, if_neg he]
          exact ih (c.url :: seen) hu

theorem impact_le_of_featured (a b : Project) (ha : a.featured = true) :
    decide (impactCompare a b ≤ 0) = true := by
  unfold impactCompare
  rw [ha]
  cases hb : b.featured <;> simp

theorem insertLe_impact_featured (a : Project) (ha : a.featured = true) (l : List Project) :
    insertLe (fun x y => decide (impactCompare x y ≤ 0)) a l = a :: l := by
  cases l with
  | nil => rfl
  | cons b t => simp [insertLe, impact_le_of_featured a b ha]

theorem insertLe_impact_not_featured (a : Project) (ha : a.featured = false) :
    ∀ (F N : List Project), (∀ x ∈ F, x.featured = true) → (∀ x ∈ N, x.featured = false) →
      insertLe (fun x y => decide (impactCompare x y ≤ 0)) a (F ++ N) = F ++ a :: N := by
  intro F
  induction F with
  | nil =>
      intro N _ hN
      cases N with
      | nil => rfl
      | cons b t =>
          have hb : b.featured = false := hN b (by simp)
          simp [insertLe, impactCompare, ha, hb]
  | cons f F ih =>
      intro N hF hN
      have hf : f.featured = true := hF f (by simp)
      have hle : decide (impactCompare a f ≤ 0) = false := by
        simp [impactCompare, ha, hf]
      have ihh := ih N (fun x hx => hF x (List.mem_cons_of_mem _ hx)) hN
      simp [insertLe, hle, ihh]

theorem sort_impact_filter_split :
    ∀ l : List Project,
      insertionSortLe (fun x y => decide (impactCompare x y ≤ 0)) l =
        l.filter (fun p => p.featured) ++ l.filter (fun p => !p.featured) := by
  intro l
  induction l with
  | nil => rfl
  | cons a l ih =>
      have hF : ∀ x ∈ l.filter (fun p => p.featured), x.featured = true :=
        fun x hx => List.of_mem_filter hx
      have hN : ∀ x ∈ l.filter (fun p => !p.featured), x.featured = false := by
        intro x hx
        have := List.of_mem_filter hx
        simpa using this
      cases ha : a.featured
      · rw [insertionSortLe, ih, insertLe_impact_not_featured a ha _ _ hF hN]
        simp [List.filter_cons, ha]
      · rw [insertionSortLe, ih, insertLe_impact_featured a ha]
        simp [List.filter_cons, ha]

theorem collect_skip (pre post : List String) (s : String) (h : cardsOfResult s = []) :
    collectCards (pre ++ s :: post) = collectCards (pre ++ post) := by
  unfold collectCards
  rw [List.foldl_append, List.foldl_append, List.foldl_cons, h, List.append_nil]

theorem chatLoop_all_tool_calls (backend : List ChatMessage → ChatResponse)
    (site : SiteContent) (resume : ResumeContent) (projects : List Project)
    (dateVal : String → Int)
    (H : ∀ m, (backend m).content = none ∧ ∃ tc tcs, (backend m).toolCalls = some (tc :: tcs)) :
    ∀ (remaining : Nat) (msgs : List ChatMessage) (results : List String) (calls : Nat),
      chatLoopAux backend site resume projects dateVal remaining msgs results calls =
        ({ answer := exhaustionAnswer, cards := none }, calls + remaining) := by
  intro remaining
  induction remaining with
  | zero => intro msgs results calls; rfl
  | succ n ih =>
      intro msgs results calls
      obtain ⟨_, tc, tcs, htc⟩ := H msgs
      rw [chatLoopAux]
      simp only [htc]
      rw [ih]
      have harith : calls + 1 + n = calls + (n + 1) := by omega
      rw [harith]

theorem entryProjectsStep_not_arr (pj : Option Json) (h : ∀ ps, pj ≠ some (Json.arr ps)) :
    entryProjectsStep pj = .ok [] := by
  cases pj with
  | none => rfl
  | some j => cases j with
    | arr ps => exact absurd rfl (h ps)
    | null => rfl
    | bool b => rfl
    | num n => rfl
    | str s => rfl
    | obj o => rfl

theorem entrySlugStep_skip (data : Json) (acc1 : List ProjectCard)
    (h : (optTruthy (jsGetD data "slug") && optTruthy (jsGetD data "title") &&
          optTruthy (jsGetD data "url")) = false) :
    entrySlugStep data acc1 = acc1 := by
  simp [entrySlugStep, h]

theorem entryResultsStep_skip (data : Json) (acc2 : List ProjectCard)
    (h : ∀ rs, jsGetD data "results" ≠ some (Json.arr rs)) :
    entryResultsStep data acc2 = acc2 := by
  unfold entryResultsStep
  rcases hr : jsGetD data "results" with _ | r
  · rfl
  · cases r with
    | arr rs => exact absurd hr (h rs)
    | null => rfl
    | bool b => rfl
    | num n => rfl
    | str s => rfl
    | obj o => rfl

theorem processEntry_unrecognized (data : Json)
    (h1 : ∀ ps, jsGetD data "projects" ≠ some (Json.arr ps))
    (h2 : (optTruthy (jsGetD data "slug") && optTruthy (jsGetD data "title") &&
           optTruthy (jsGetD data "url")) = false)
    (h3 : ∀ rs, jsGetD data "results" ≠ some (Json.arr rs)) :
    processEntry data = [] := by
  cases data with
  | null => rfl
  | bool b =>
      show entryResultsStep (Json.bool b) (entrySlugStep (Json.bool b) []) = []
      rw [entrySlugStep_skip _ _ h2, entryResultsStep_skip _ _ h3]
  | num n =>
      show entryResultsStep (Json.num n) (entrySlugStep (Json.num n) []) = []
      rw [entrySlugStep_skip _ _ h2, entryResultsStep_skip _ _ h3]
  | str s =>
      show entryResultsStep (Json.str s) (entrySlugStep (Json.str s) []) = []
      rw [entrySlugStep_skip _ _ h2, entryResultsStep_skip _ _ h3]
  | arr l =>
      show entryResultsStep (Json.arr l) (entrySlugStep (Json.arr l) []) = []
      rw [entrySlugStep_skip _ _ h2, entryResultsStep_skip _ _ h3]
  | obj fs =>
      show (match entryProjectsStep (fs.lookupField "projects") with
            | Except.error acc => acc
            | Except.ok acc1 => entryResultsStep (Json.obj fs) (entrySlugStep (Json.obj fs) acc1)) = []
      rw [entryProjectsStep_not_arr _ (by simpa [jsGetD] using h1)]
      show entryResultsStep (Json.obj fs) (entrySlugStep (Json.obj fs) []) = []
      rw [entrySlugStep_skip _ _ h2, entryResultsStep_skip _ _ h3]

/-! ## Claims -/

/-- Claim C1: the orchestration loop never performs more than 5 model-turn
iterations — for every backend whose every response carries at least one tool
call and no terminal content, the POST /chat handler's loop calls the backend
exactly 5 times and then returns the fixed apologetic fallback answer with no
cards. -/
theorem loop_exhausts_after_five_backend_calls
    (backend : List ChatMessage → ChatResponse) (site : SiteContent)
    (resume : ResumeContent) (projects : List Project) (dateVal : String → Int)
    (initialMessages : List ChatMessage)
    (H : ∀ m, (backend m).content = none ∧ ∃ tc tcs, (backend m).toolCalls = some (tc :: tcs)) :
    runChatLoop backend site resume projects dateVal initialMessages =
      ({ answer := exhaustionAnswer, cards := none }, 5) := by
  unfold runChatLoop
  rw [chatLoop_all_tool_calls backend site resume projects dateVal H]
  rfl

/-- Witness for C1: a concrete stub backend that always asks for `get_contact`
exhausts the loop after exactly 5 backend calls. -/
theorem loop_exhausts_after_five_backend_calls_witness :
    runChatLoop backendW siteW resumeW projectsW dateValW [{ role := "user", content := "hi" }] =
      ({ answer := exhaustionAnswer, cards := none }, 5) :=
  loop_exhausts_after_five_backend_calls backendW siteW resumeW projectsW dateValW _
    (fun _ => ⟨rfl, { id := "call_1", type := "function",
                      function := { name := "get_contact", arguments := "\x7b\x7d" } }, [], rfl⟩)

/-- Claim C2: the fallback text-marker parser locates the literal `TOOL_CALL:`
marker, takes the first `{` after it, scans to the matching balanced closing
brace and parses the enclosed text as JSON of shape `{tool: string, args:
object}`; it returns no tool call (never an exception) when the marker is
absent, when no `{` follows it, when braces never balance, or when the enclosed
text is not valid JSON of that shape; and on content ending in
`TOOL_CALL: {"tool":"get_contact","args":{}}` it produces a tool call named
`get_contact` with empty arguments. -/
theorem fallback_marker_parser_behaviour :
    (∀ content now, strIndexOf content "TOOL_CALL:" = none →
       parseFallbackToolCall content now = none) ∧
    (∀ content now i, strIndexOf content "TOOL_CALL:" = some i →
       indexOfCharFrom content.data '{' i = none →
       parseFallbackToolCall content now = none) ∧
    (∀ content now i s, strIndexOf content "TOOL_CALL:" = some i →
       indexOfCharFrom content.data '{' i = some s →
       scanToBalance (content.data.drop s) 0 s = none →
       parseFallbackToolCall content now = none) ∧
    (∀ content now i s e, strIndexOf content "TOOL_CALL:" = some i →
       indexOfCharFrom content.data '{' i = some s →
       scanToBalance (content.data.drop s) 0 s = some e →
       parseJson (String.mk ((content.data.drop s).take (e - s))) = none →
       parseFallbackToolCall content now = none) ∧
    (∀ content now i s e j, strIndexOf content "TOOL_CALL:" = some i →
       indexOfCharFrom content.data '{' i = some s →
       scanToBalance (content.data.drop s) 0 s = some e →
       parseJson (String.mk ((content.data.drop s).take (e - s))) = some j →
       toolCallValidate j = none →
       parseFallbackToolCall content now = none) ∧
    parseFallbackToolCall ("Let me check. TOOL_CALL: \x7b\"tool\":\"get_contact\",\"args\":\x7b\x7d\x7d") 7 =
      some { id := "call_7", type := "function",
             function := { name := "get_contact", arguments := "\x7b\x7d" } } := by
  refine ⟨?_, ?_, ?_, ?_, ?_, ?_⟩
  · intro content now h
    simp [parseFallbackToolCall, h]
  · intro content now i h1 h2
    simp [parseFallbackToolCall, h1, h2]
  · intro content now i s h1 h2 h3
    simp [parseFallbackToolCall, h1, h2, h3]
  · intro content now i s e h1 h2 h3 h4
    simp [parseFallbackToolCall, h1, h2, h3, h4]
  · intro content now i s e j h1 h2 h3 h4 h5
    simp [parseFallbackToolCall, h1, h2, h3, h4, h5]
  · decide

/-- Witness for C2: each failure mode of the fallback parser exercised on a
concrete input (no marker; no brace; unbalanced braces; invalid JSON; valid
JSON of the wrong shape). -/
theorem fallback_marker_parser_behaviour_witness :
    parseFallbackToolCall "no marker here" 0 = none ∧
    parseFallbackToolCall "TOOL_CALL: nope" 1 = none ∧
    parseFallbackToolCall "TOOL_CALL: \x7b\x7b" 2 = none ∧
    parseFallbackToolCall "TOOL_CALL: \x7bbad\x7d" 3 = none ∧
    parseFallbackToolCall "TOOL_CALL: \x7b\"a\":1\x7d" 4 = none :=
  ⟨fallback_marker_parser_behaviour.1 _ 0 (by decide),
   fallback_marker_parser_behaviour.2.1 _ 1 0 (by decide) (by decide),
   fallback_marker_parser_behaviour.2.2.1 _ 2 0 11 (by decide) (by decide) (by decide),
   fallback_marker_parser_behaviour.2.2.2.1 _ 3 0 11 16 (by decide) (by decide) (by decide)
     (by decide),
   fallback_marker_parser_behaviour.2.2.2.2.1 _ 4 0 11 18 (objL [("a", Json.num "1")])
     (by decide) (by decide) (by decide) (by decide) (by decide)⟩

/-- Claim C3 (counterexample): on the raw text "hello" — which matches neither
the native grammar, the `TOOL_CALL:` fallback, nor the `FINAL:` marker — with
the backend's own finish signal being "length", the HuggingFace branch of the
Model Gateway returns `finishReason = "stop"`, not the backend's stop/length
signal (nor the claimed "length" default). -/
theorem huggingface_raw_finish_reason_counterexample :
    classifyHuggingFace (some "hello") none (some "length") 0 =
      { content := some "hello", toolCalls := none, finishReason := "stop" } ∧
    (classifyHuggingFace (some "hello") none (some "length") 0).finishReason ≠ "length" := by
  constructor
  · rfl
  · decide

/-- Claim C3 (amended): for every raw model text in which no grammar matches,
the OpenAI-compatible backend returns the entire text with `finishReason`
taken from the backend's stop/length signal (defaulting to "length" when the
signal is anything but "stop"), while the HuggingFace backend returns the
entire text with `finishReason` unconditionally "stop". -/
theorem raw_text_finish_reason_amended (content : String) (mtc : Option (List ToolCall))
    (finishSignal : Option String) (now : Nat)
    (hmtc : mtc = none ∨ mtc = some [])
    (hfb : parseFallbackToolCall content now = none)
    (hfa : optStrTruthy (parseFinalAnswer content) = false) :
    classifyOpenAICompatible (some content) mtc finishSignal now =
      { content := some content, toolCalls := none,
        finishReason := if finishSignal = some "stop" then "stop" else "length" } ∧
    classifyHuggingFace (some content) mtc finishSignal now =
      { content := some content, toolCalls := none, finishReason := "stop" } := by
  rcases hmtc with h | h <;> subst h <;>
    exact ⟨by simp [classifyOpenAICompatible, hfb, hfa],
           by simp [classifyHuggingFace, hfb, hfa]⟩

/-- Witness for C3's amended theorem at content "hello" and signal "length". -/
theorem raw_text_finish_reason_amended_witness :
    classifyOpenAICompatible (some "hello") none (some "length") 0 =
      { content := some "hello", toolCalls := none,
        finishReason := if (some "length" : Option String) = some "stop" then "stop" else "length" } ∧
    classifyHuggingFace (some "hello") none (some "length") 0 =
      { content := some "hello", toolCalls := none, finishReason := "stop" } :=
  raw_text_finish_reason_amended "hello" none (some "length") 0 (Or.inl rfl)
    (by decide) (by decide)

/-- Claim C4: for every tool name outside the fixed six-tool catalog and every
argument object, the Tool Registry returns (never raises) a JSON object payload
containing an `error` key of the form `Unknown tool: <name>`. -/
theorem unknown_tool_returns_error_payload (site : SiteContent) (resume : ResumeContent)
    (projects : List Project) (dateVal : String → Int) (name : String) (args : Json)
    (h : name ∉ toolCatalog) :
    callToolJson site resume projects dateVal name args =
      .ok (objL [("error", Json.str ("Unknown tool: " ++ name))]) := by
  unfold callToolJson
  split <;> simp_all [toolCatalog]

/-- Witness for C4 at the unknown tool name `make_coffee`. -/
theorem unknown_tool_returns_error_payload_witness :
    callToolJson siteW resumeW projectsW dateValW "make_coffee" (Json.obj .nil) =
      .ok (objL [("error", Json.str ("Unknown tool: " ++ "make_coffee"))]) :=
  unknown_tool_returns_error_payload siteW resumeW projectsW dateValW "make_coffee"
    (Json.obj .nil) (by decide)

/-- Claim C5 (counterexample): `search_site` invoked with its required `query`
field absent does not yield an error payload — it returns the normal search
payload for the empty query, which has no `error` key. -/
theorem search_site_missing_query_counterexample :
    callToolJson siteW resumeW projectsW dateValW "search_site" (Json.obj .nil) =
      .ok (searchPayload siteW resumeW projectsW "") ∧
    jsGetD (searchPayload siteW resumeW projectsW "") "error" = none := by
  exact ⟨rfl, rfl⟩

/-- Claim C5 (amended): `get_project` with `slug` absent and
`get_resume_section` with `section` absent yield a structured `{error}` JSON
payload instead of the normal success path; `search_site` with `query` absent
does not — it treats the missing query as the empty string and dispatches the
handler's normal search path. -/
theorem missing_required_field_amended (site : SiteContent) (resume : ResumeContent)
    (projects : List Project) (dateVal : String → Int) (args : Json)
    (hslug : argGet args "slug" = none) (hsec : argGet args "section" = none)
    (hq : argGet args "query" = none) :
    callToolJson site resume projects dateVal "get_project" args =
      .ok (objL [("error", Json.str "slug is required")]) ∧
    callToolJson site resume projects dateVal "get_resume_section" args =
      .ok (objL [("error", Json.str "section is required")]) ∧
    callToolJson site resume projects dateVal "search_site" args =
      .ok (searchPayload site resume projects "") := by
  refine ⟨?_, ?_, ?_⟩ <;> simp [callToolJson, hslug, hsec, hq, optTruthy]

/-- Witness for C5's amended theorem with the empty argument object. -/
theorem missing_required_field_amended_witness :
    callToolJson siteW resumeW projectsW dateValW "get_project" (Json.obj .nil) =
      .ok (objL [("error", Json.str "slug is required")]) ∧
    callToolJson siteW resumeW projectsW dateValW "get_resume_section" (Json.obj .nil) =
      .ok (objL [("error", Json.str "section is required")]) ∧
    callToolJson siteW resumeW projectsW dateValW "search_site" (Json.obj .nil) =
      .ok (searchPayload siteW resumeW projectsW "") :=
  missing_required_field_amended siteW resumeW projectsW dateValW (Json.obj .nil) rfl rfl rfl

/-- Claim C6 (counterexample): the empty string is a slug equal to no project's
slug, yet `get_project` with `slug: ""` returns the bare `slug is required`
error payload, which has no `availableSlugs` field. -/
theorem get_project_empty_slug_counterexample :
    projectsW.all (fun p => p.slug != "") = true ∧
    callToolJson siteW resumeW projectsW dateValW "get_project" (objL [("slug", Json.str "")]) =
      .ok (objL [("error", Json.str "slug is required")]) ∧
    jsGetD (objL [("error", Json.str "slug is required")]) "availableSlugs" = none := by
  exact ⟨by decide, rfl, rfl⟩

/-- Claim C6 (amended): for every nonempty slug string not equal to the slug of
any project in the loaded project list, `get_project` returns a payload with an
`error` key and an `availableSlugs` field equal to the full list of project
slugs in original order (the empty-string slug instead hits the required-field
error, which carries no `availableSlugs`). -/
theorem get_project_unknown_slug_amended (site : SiteContent) (resume : ResumeContent)
    (projects : List Project) (dateVal : String → Int) (slug : String)
    (hne : slug ≠ "") (habs : ∀ p ∈ projects, p.slug ≠ slug) :
    callToolJson site resume projects dateVal "get_project" (objL [("slug", Json.str slug)]) =
      .ok (objL [("error", Json.str ("Project not found: " ++ slug)),
                 ("availableSlugs", jsonStrList (projects.map (fun p => p.slug)))]) := by
  have hfind : projects.find? (fun p => decide (slug = p.slug)) = none := by
    apply List.find?_eq_none.mpr
    intro p hp
    simp only [decide_eq_true_eq]
    exact fun he => habs p hp he.symm
  simp [callToolJson, argGet, objL, JsonFields.ofList, JsonFields.lookupField, optTruthy,
    jsonTruthy, hne, hfind, jsToString]

/-- Witness for C6's amended theorem at the unknown nonempty slug `nope`. -/
theorem get_project_unknown_slug_amended_witness :
    callToolJson siteW resumeW projectsW dateValW "get_project" (objL [("slug", Json.str "nope")]) =
      .ok (objL [("error", Json.str ("Project not found: " ++ "nope")),
                 ("availableSlugs", jsonStrList (projectsW.map (fun p => p.slug)))]) :=
  get_project_unknown_slug_amended siteW resumeW projectsW dateValW "nope" (by decide) (by decide)

/-- Claim C7: `list_projects` with sort `impact` (or sort absent, the default)
and no tag filter returns the payload whose `projects` array places every
featured record before every unfeatured one, preserving the source list's
relative order within each group (and whose `filters.sort` is `impact`). -/
theorem list_projects_impact_featured_first (site : SiteContent) (resume : ResumeContent)
    (projects : List Project) (dateVal : String → Int) (args : Json)
    (htag : argGet args "tag" = none)
    (hsort : argGet args "sort" = none ∨ argGet args "sort" = some (Json.str "impact")) :
    callToolJson site resume projects dateVal "list_projects" args =
      .ok (objL [("filters", objL [("sort", Json.str "impact")]),
                 ("count", Json.num (toString ((projects.filter (fun p => p.featured) ++
                    projects.filter (fun p => !p.featured)).map lpEntryJson).length)),
                 ("projects", arrL ((projects.filter (fun p => p.featured) ++
                    projects.filter (fun p => !p.featured)).map lpEntryJson))]) := by
  rcases hsort with h | h <;>
    simp [callToolJson, htag, h, jsonTruthy, sort_impact_filter_split]

/-- Witness for C7 on the concrete two-project list (one featured, one not)
with an empty argument object. -/
theorem list_projects_impact_featured_first_witness :
    callToolJson siteW resumeW projectsW dateValW "list_projects" (Json.obj .nil) =
      .ok (objL [("filters", objL [("sort", Json.str "impact")]),
                 ("count", Json.num (toString ((projectsW.filter (fun p => p.featured) ++
                    projectsW.filter (fun p => !p.featured)).map lpEntryJson).length)),
                 ("projects", arrL ((projectsW.filter (fun p => p.featured) ++
                    projectsW.filter (fun p => !p.featured)).map lpEntryJson))]) :=
  list_projects_impact_featured_first siteW resumeW projectsW dateValW (Json.obj .nil)
    rfl (Or.inl rfl)

/-- Claim C8: card extraction is deterministic and idempotent — running it
twice on the same tool-result list yields identical output; deduplication
keeps, for each URL, exactly the first card carrying that URL in source order;
and on a list of two project records sharing the same URL it yields exactly
one card built from the first record's fields. -/
theorem card_extraction_deterministic_dedup :
    (∀ toolResults, extractProjectCards toolResults = extractProjectCards toolResults) ∧
    (∀ toolResults u,
       (extractProjectCards toolResults).filter (fun c => decide (c.url = u)) =
         ((collectCards toolResults).filter (fun c => decide (c.url = u))).take 1) ∧
    extractProjectCards [dupResult1, dupResult2] =
      [{ title := some (Json.str "First"), description := some (Json.str "one"),
         url := some (Json.str "https://u"), metrics := none, tags := none,
         githubUrl := none, demoUrl := none }] := by
  refine ⟨fun _ => rfl, ?_, by decide⟩
  intro toolResults u
  exact dedupe_filter_of_not_mem u (collectCards toolResults) [] (by simp)

/-- Claim C9: for every query string, the `search_site` handler returns its
hits in the fixed category order — about, then resume summary, then experience
entries in original order, then projects in original order, then skills — with
each hit tagged by its source category. -/
theorem search_site_result_order (site : SiteContent) (resume : ResumeContent)
    (projects : List Project) (q : String) :
    searchResults site resume projects q =
      (if aboutMatches site q then [aboutHit site] else []) ++
      (if summaryMatches resume q then [summaryHit resume] else []) ++
      (resume.experience.filter (expMatches q)).map expHit ++
      (projects.filter (projMatches q)).map projHit ++
      (if ((allSkills resume).filter (fun s => strIncludes (lowerStr s) q)).length > 0
        then [skillsHit ((allSkills resume).filter (fun s => strIncludes (lowerStr s) q))]
        else []) ∧
    (aboutHit site).type = "about" ∧
    (summaryHit resume).type = "resume" ∧
    (∀ e, (expHit e).type = "experience") ∧
    (∀ p, (projHit p).type = "project") ∧
    (∀ m, (skillsHit m).type = "skills") ∧
    (∀ dv s, callToolJson site resume projects dv "search_site" (objL [("query", Json.str s)]) =
       .ok (searchPayload site resume projects (lowerStr s))) := by
  refine ⟨?_, rfl, rfl, fun _ => rfl, fun _ => rfl, fun _ => rfl, fun _ _ => rfl⟩
  simp only [searchResults]
  rw [foldl_push_filter (expMatches q) expHit resume.experience,
      foldl_push_filter (projMatches q) projHit projects]
  split_ifs <;> simp [List.append_assoc]

/-- Claim C10: card extraction is total over arbitrary input strings — an entry
that is not valid JSON contributes zero cards (and dropping it from the list
leaves the extraction unchanged), and a parsed entry of an unrecognized shape
(no `projects` array, no truthy `slug`/`title`/`url` triple, no `results`
array) contributes zero cards. -/
theorem card_extraction_total_on_garbage :
    (∀ s, parseJson s = none → cardsOfResult s = []) ∧
    (∀ pre post s, parseJson s = none →
       extractProjectCards (pre ++ s :: post) = extractProjectCards (pre ++ post)) ∧
    (∀ data, (∀ ps, jsGetD data "projects" ≠ some (Json.arr ps)) →
       (optTruthy (jsGetD data "slug") && optTruthy (jsGetD data "title") &&
        optTruthy (jsGetD data "url")) = false →
       (∀ rs, jsGetD data "results" ≠ some (Json.arr rs)) →
       processEntry data = []) := by
  refine ⟨?_, ?_, processEntry_unrecognized⟩
  · intro s h
    simp [cardsOfResult, h]
  · intro pre post s h
    unfold extractProjectCards
    rw [collect_skip pre post s (by simp [cardsOfResult, h])]

/-- Witness for C10: a non-JSON entry contributes nothing, dropping it leaves
extraction unchanged, and a parsed entry of unrecognized shape (a bare JSON
string) contributes nothing. -/
theorem card_extraction_total_on_garbage_witness :
    cardsOfResult "@@" = [] ∧
    extractProjectCards ([] ++ "not json" :: []) = extractProjectCards ([] ++ []) ∧
    processEntry (Json.str "zzz") = [] :=
  ⟨card_extraction_total_on_garbage.1 "@@" (by decide),
   card_extraction_total_on_garbage.2.1 [] [] "not json" (by decide),
   card_extraction_total_on_garbage.2.2 (Json.str "zzz") (fun ps => by simp [jsGetD])
     (by decide) (fun rs => by simp [jsGetD])⟩
